import Mathlib

/-!
Formal model of the rotary drag-and-snap interaction of the Harmony
Tensions wheel (`src/hooks/useRotary.ts`), together with its geometry
engine (`calculateAngleFromCenter`) and the input-event coordinate
extraction (`getEventCoordinates`).

JavaScript numeric remainder `a % b` truncates the quotient toward
zero; it is modelled by `jsMod`.  `Math.round` rounds half toward
positive infinity and is modelled by `jsRound`.  Rotation angles are
modelled as rational numbers; the transcendental geometry
(`Math.atan2`) is modelled over the reals.
-/

/-- Truncation of a rational toward zero, the quotient underlying the
JavaScript `%` operator. -/
def ratTrunc (q : ℚ) : ℤ := if 0 ≤ q then ⌊q⌋ else ⌈q⌉

/-- JavaScript numeric remainder `a % b`, namely `a - b * trunc (a / b)`. -/
def jsMod (a b : ℚ) : ℚ := a - b * ratTrunc (a / b)

/-- JavaScript `Math.round`: the floor of `q + 1/2` (halves round up). -/
def jsRound (q : ℚ) : ℤ := ⌊q + 1 / 2⌋

/-- The constant `degreesPerSection = 360 / sections` computed in
`handleEnd` (`useRotary.ts`, line 132). -/
def degreesPerSection (sections : ℕ) : ℚ := 360 / sections

/-- The constant `snappedRotation` computed in `handleEnd`
(line 135): `Math.round(currentRotation / degreesPerSection) *
degreesPerSection`. -/
def snappedRotation (sections : ℕ) (currentRotation : ℚ) : ℚ :=
  (jsRound (currentRotation / degreesPerSection sections) : ℚ) * degreesPerSection sections

/-- The constant `normalizedRotation` computed in `handleEnd`
(line 143): `(snappedRotation % 360 + 360) % 360` with JavaScript `%`. -/
def normalizedRotation (snapped : ℚ) : ℚ :=
  jsMod (jsMod snapped 360 + 360) 360

/-- The constant `sectionIndex` computed in `handleEnd` (line 153):
`(sections - Math.round(normalizedRotation / degreesPerSection) % sections) % sections`,
where both occurrences of `%` are the JavaScript truncated remainder
(on integer values here, hence `Int.tmod`). -/
def sectionIndex (sections : ℕ) (snapped : ℚ) : ℤ :=
  Int.tmod ((sections : ℤ) -
      Int.tmod (jsRound (normalizedRotation snapped / degreesPerSection sections)) (sections : ℤ))
    (sections : ℤ)

/-- The selection mapping exactly as §4.3 of the spec words it:
normalize `snappedDegrees` into `[0, 360)` via `((snapped % 360) + 360) % 360`,
compute the raw section offset `k = round(normalized / anglePerSection) mod sectionCount`,
and emit the complement `index = (sectionCount - k) mod sectionCount`.
Here `round` is the generic round-half-up function and `mod` is the
mathematical (nonnegative-representative) modulus `Int.emod`. -/
def specSelectionIndex (sectionCount : ℕ) (snapped : ℚ) : ℤ :=
  Int.emod ((sectionCount : ℤ) -
      Int.emod (round (jsMod (jsMod snapped 360 + 360) 360 / (360 / (sectionCount : ℚ))))
        (sectionCount : ℤ))
    (sectionCount : ℤ)

/-- The state held by one `useRotary` instance: the rendered `rotation`
React state, the `isDragging` React state, and the two mutable refs
`startAngleRef` and `currentRotationRef`. -/
structure RotaryState where
  rotation : ℚ
  isDragging : Bool
  startAngle : ℚ
  currentRotation : ℚ
deriving DecidableEq

/-- The options record `UseRotaryOptions` of `useRotary.ts`: the section
count, whether an `onValueChange` callback was supplied, and the initial
rotation.  The section count is an integer here because the source
performs no validation of it whatsoever. -/
structure UseRotaryOptions where
  sections : ℤ
  hasCallback : Bool
  initialRotation : ℚ
deriving DecidableEq

/-- Hook construction (`useRotary`, lines 37-52): initialise `rotation`
and `currentRotationRef` to the initial rotation, `isDragging` to
`false` and `startAngleRef` to `0`.  The source contains no assertion
or validation of `sections`; construction is total. -/
def useRotaryInit (opts : UseRotaryOptions) : RotaryState :=
  { rotation := opts.initialRotation
    isDragging := false
    startAngle := 0
    currentRotation := opts.initialRotation }

/-- `handleStart`: record `startAngleRef = mouseAngle - currentRotationRef`
and set `isDragging` to `true`.  The pointer angle is the value the
geometry engine produced for the start event's coordinates. -/
def handleStart (mouseAngle : ℚ) (s : RotaryState) : RotaryState :=
  { s with startAngle := mouseAngle - s.currentRotation, isDragging := true }

/-- `handleMove`: a no-op unless dragging; otherwise set both the
rendered rotation and `currentRotationRef` to
`mouseAngle - startAngleRef`. -/
def handleMove (mouseAngle : ℚ) (s : RotaryState) : RotaryState :=
  if s.isDragging then
    { s with rotation := mouseAngle - s.startAngle,
             currentRotation := mouseAngle - s.startAngle }
  else s

/-- `handleEnd`: a no-op unless dragging; otherwise clear `isDragging`,
snap both the rendered rotation and `currentRotationRef` to the nearest
section boundary, and, when a callback is configured, emit the derived
section index.  The emitted value is returned as the second component
(`none` when nothing is emitted). -/
def handleEnd (sections : ℕ) (hasCallback : Bool) (s : RotaryState) : RotaryState × Option ℤ :=
  if s.isDragging then
    let snapped := snappedRotation sections s.currentRotation
    ({ s with isDragging := false, rotation := snapped, currentRotation := snapped },
      if hasCallback then some (sectionIndex sections snapped) else none)
  else (s, none)

/-- One touch point of a `TouchEvent`, carrying client coordinates. -/
structure TouchPoint where
  clientX : ℚ
  clientY : ℚ
deriving DecidableEq

/-- The `{x, y}` record returned by `getEventCoordinates`. -/
structure EventPoint where
  x : ℚ
  y : ℚ
deriving DecidableEq

/-- The union `MouseEvent | TouchEvent` as `getEventCoordinates`
distinguishes it (presence of a `touches` field). -/
inductive InputEvent where
  | mouse (clientX clientY : ℚ)
  | touch (touches : List TouchPoint)
deriving DecidableEq

/-- `getEventCoordinates`: for a touch event read
`touches[0].clientX / touches[0].clientY`, for a mouse event read
`clientX / clientY`.  The unguarded `touches[0]` access is fallible:
on an empty touch list the source would dereference `undefined`, which
is modelled by the `none` result. -/
def getEventCoordinates : InputEvent → Option EventPoint
  | InputEvent.touch touches =>
      (touches.head?).map (fun t => { x := t.clientX, y := t.clientY })
  | InputEvent.mouse clientX clientY => some { x := clientX, y := clientY }

/-- A DOM bounding client rectangle as used by
`calculateAngleFromCenter`. -/
structure DOMRect where
  left : ℝ
  top : ℝ
  width : ℝ
  height : ℝ

/-- The two-argument arctangent `Math.atan2(y, x)`: the argument of the
complex number `x + y i`, valued in `(-π, π]` with `atan2 0 0 = 0`. -/
noncomputable def atan2 (y x : ℝ) : ℝ := Complex.arg ⟨x, y⟩

/-- `calculateAngleFromCenter` (`useRotary.ts`, lines 61-79): if the
container ref is not mounted, return `0`; otherwise take the centre of
the bounding rectangle, form the deltas from the centre to the pointer,
and convert `Math.atan2(deltaY, deltaX)` from radians to degrees. -/
noncomputable def calculateAngleFromCenter (container : Option DOMRect)
    (clientX clientY : ℝ) : ℝ :=
  match container with
  | none => 0
  | some rect =>
      let centerX := rect.left + rect.width / 2
      let centerY := rect.top + rect.height / 2
      let deltaX := clientX - centerX
      let deltaY := clientY - centerY
      let angleInRadians := atan2 deltaY deltaX
      angleInRadians * 180 / Real.pi

/-! ### Arithmetic facts about the JavaScript remainder and rounding -/

lemma ratTrunc_of_nonneg {q : ℚ} (h : 0 ≤ q) : ratTrunc q = ⌊q⌋ := if_pos h

lemma ratTrunc_of_nonpos {q : ℚ} (h : q ≤ 0) : ratTrunc q = ⌈q⌉ := by
  rcases eq_or_lt_of_le h with h0 | h0
  · rw [ratTrunc, if_pos (le_of_eq h0.symm), h0]
    norm_num
  · exact if_neg (not_le.mpr h0)

lemma jsRound_intCast (m : ℤ) : jsRound (m : ℚ) = m := by
  rw [jsRound, add_comm, Int.floor_add_int]
  norm_num

lemma jsRound_eq_round (q : ℚ) : jsRound q = round q := (round_eq q).symm

lemma jsMod_of_nonneg {a b : ℚ} (ha : 0 ≤ a) (hb : 0 < b) :
    jsMod a b = b * Int.fract (a / b) := by
  rw [jsMod, ratTrunc_of_nonneg (div_nonneg ha hb.le), Int.fract, mul_sub,
    mul_div_cancel₀ a hb.ne']

lemma jsMod_of_nonpos {a b : ℚ} (ha : a ≤ 0) (hb : 0 < b) :
    jsMod a b = -(b * Int.fract (-a / b)) := by
  have h1 : a / b ≤ 0 := div_nonpos_of_nonpos_of_nonneg ha hb.le
  have h2 : (⌈a / b⌉ : ℤ) = -⌊-a / b⌋ := by
    rw [← Int.ceil_neg, neg_div, neg_neg]
  rw [jsMod, ratTrunc_of_nonpos h1, h2, Int.fract]
  push_cast
  rw [mul_sub, mul_div_cancel₀ (-a) hb.ne']
  ring

lemma jsMod_self_pos {b : ℚ} (hb : 0 < b) : jsMod b b = 0 := by
  rw [jsMod_of_nonneg hb.le hb, div_self hb.ne', Int.fract_one, mul_zero]

lemma fract_neg_div {a b : ℚ} (hf : Int.fract (-a / b) = 0) : Int.fract (a / b) = 0 := by
  have h1 := Int.fract_neg_eq_zero.mpr hf
  rw [neg_div, neg_neg] at h1
  exact h1

lemma double_jsMod {b : ℚ} (hb : 0 < b) (a : ℚ) :
    jsMod (jsMod a b + b) b = b * Int.fract (a / b) := by
  rcases le_or_lt 0 a with ha | ha
  · rw [jsMod_of_nonneg ha hb]
    have hf0 : 0 ≤ Int.fract (a / b) := Int.fract_nonneg _
    have hf1 : Int.fract (a / b) < 1 := Int.fract_lt_one _
    have hnn : 0 ≤ b * Int.fract (a / b) + b := by positivity
    rw [jsMod_of_nonneg hnn hb]
    congr 1
    have hq : (b * Int.fract (a / b) + b) / b = Int.fract (a / b) + 1 := by
      field_simp
      ring
    rw [hq, show Int.fract (a / b) + 1 = Int.fract (a / b) + ((1 : ℤ) : ℚ) by norm_num,
      Int.fract_add_int, Int.fract_eq_self.mpr ⟨hf0, hf1⟩]
  · rw [jsMod_of_nonpos ha.le hb]
    by_cases hf : Int.fract (-a / b) = 0
    · rw [hf, mul_zero, neg_zero, zero_add, jsMod_self_pos hb, fract_neg_div hf, mul_zero]
    · have hf0 : 0 < Int.fract (-a / b) :=
        lt_of_le_of_ne (Int.fract_nonneg _) (Ne.symm hf)
      have hf1 : Int.fract (-a / b) < 1 := Int.fract_lt_one _
      have hnn : 0 ≤ -(b * Int.fract (-a / b)) + b := by nlinarith
      rw [jsMod_of_nonneg hnn hb]
      have hq : (-(b * Int.fract (-a / b)) + b) / b = (1 - Int.fract (-a / b)) + 0 := by
        field_simp
        ring
      have hgoal : Int.fract ((-(b * Int.fract (-a / b)) + b) / b) = 1 - Int.fract (-a / b) := by
        rw [hq, add_zero, Int.fract_eq_self.mpr ⟨by linarith, by linarith⟩]
      rw [hgoal]
      have h6 : Int.fract (a / b) = 1 - Int.fract (-a / b) := by
        have h5 : Int.fract (-(-a / b)) = 1 - Int.fract (-a / b) := Int.fract_neg hf
        rw [show -(-a / b) = a / b by ring] at h5
        exact h5
      rw [h6]

lemma normalizedRotation_eq (s : ℚ) : normalizedRotation s = 360 * Int.fract (s / 360) :=
  double_jsMod (by norm_num) s

lemma normalizedRotation_nonneg (s : ℚ) : 0 ≤ normalizedRotation s := by
  rw [normalizedRotation_eq]
  have := Int.fract_nonneg (s / 360)
  positivity

lemma normalizedRotation_lt (s : ℚ) : normalizedRotation s < 360 := by
  rw [normalizedRotation_eq]
  have := Int.fract_lt_one (s / 360)
  linarith

lemma degreesPerSection_pos {n : ℕ} (hn : 0 < n) : 0 < degreesPerSection n := by
  rw [degreesPerSection]
  have hnQ : (0 : ℚ) < (n : ℚ) := by exact_mod_cast hn
  positivity

/-- Master characterization: on a rotation that is exactly `m` sections,
the section index computed by `handleEnd` is `(-m) mod sections`. -/
lemma sectionIndex_intCast_mul (n : ℕ) (hn : 0 < n) (m : ℤ) :
    sectionIndex n ((m : ℚ) * degreesPerSection n) = (-m) % (n : ℤ) := by
  have hnQ : (0 : ℚ) < (n : ℚ) := by exact_mod_cast hn
  have hnZ : (0 : ℤ) < (n : ℤ) := by exact_mod_cast hn
  have hr0 : 0 ≤ m % (n : ℤ) := Int.emod_nonneg m hnZ.ne'
  have hr1 : m % (n : ℤ) < (n : ℤ) := Int.emod_lt_of_pos m hnZ
  have hs : ((m : ℚ) * degreesPerSection n) / 360 = (m : ℚ) / (n : ℚ) := by
    rw [degreesPerSection]
    field_simp
    ring
  have hfr : Int.fract ((m : ℚ) / (n : ℚ)) = ((m % (n : ℤ) : ℤ) : ℚ) / (n : ℚ) :=
    Int.fract_div_intCast_eq_div_intCast_mod
  have hnorm : normalizedRotation ((m : ℚ) * degreesPerSection n)
      = 360 * (((m % (n : ℤ) : ℤ) : ℚ) / (n : ℚ)) := by
    rw [normalizedRotation_eq, hs, hfr]
  have hdiv : 360 * (((m % (n : ℤ) : ℤ) : ℚ) / (n : ℚ)) / degreesPerSection n
      = ((m % (n : ℤ) : ℤ) : ℚ) := by
    rw [degreesPerSection]
    field_simp
  rw [sectionIndex, hnorm, hdiv, jsRound_intCast,
    Int.tmod_eq_emod hr0 hnZ.le, Int.emod_eq_of_lt hr0 hr1]
  have hq : -m = ((n : ℤ) - m % (n : ℤ)) + (n : ℤ) * (-(m / (n : ℤ)) - 1) := by
    have hdm := Int.ediv_add_emod m (n : ℤ)
    linear_combination hdm
  rw [hq, Int.add_mul_emod_self_left,
    Int.tmod_eq_emod (by linarith) hnZ.le]

/-! ### Claims -/

/-- C1: for every sectionCount n > 0 and every snapped rotation value,
the section index that `handleEnd` emits equals the selection mapping
exactly as §4.3 of the spec states it (normalize via
`((s % 360) + 360) % 360`, take `k = round(normalized / (360/n)) mod n`,
emit `(n - k) mod n`). -/
theorem emitted_index_matches_spec_mapping (n : ℕ) (hn : 0 < n) (s : ℚ) :
    sectionIndex n s = specSelectionIndex n s := by
  have hnZ : (0 : ℤ) < (n : ℤ) := by exact_mod_cast hn
  have hq0 : 0 ≤ normalizedRotation s / degreesPerSection n :=
    div_nonneg (normalizedRotation_nonneg s) (degreesPerSection_pos hn).le
  have hj0 : 0 ≤ jsRound (normalizedRotation s / degreesPerSection n) := by
    rw [jsRound]
    exact Int.floor_nonneg.mpr (by linarith)
  have hk0 : 0 ≤ jsRound (normalizedRotation s / degreesPerSection n) % (n : ℤ) :=
    Int.emod_nonneg _ hnZ.ne'
  have hk1 : jsRound (normalizedRotation s / degreesPerSection n) % (n : ℤ) < (n : ℤ) :=
    Int.emod_lt_of_pos _ hnZ
  rw [sectionIndex, specSelectionIndex, ← jsRound_eq_round,
    show jsMod (jsMod s 360 + 360) 360 = normalizedRotation s from rfl,
    show (360 / (n : ℚ)) = degreesPerSection n from rfl,
    Int.tmod_eq_emod hj0 hnZ.le, Int.tmod_eq_emod (by linarith) hnZ.le]
  rfl

/-- Witness for C1 at n = 12, snapped value 30. -/
theorem emitted_index_matches_spec_mapping_witness :
    0 < 12 ∧ sectionIndex 12 30 = specSelectionIndex 12 30 :=
  ⟨by norm_num, emitted_index_matches_spec_mapping 12 (by norm_num) 30⟩

/-- C2: releasing with a snapped rotation of exactly `+360/n` emits the
complement index `n - 1`; concretely for n = 12, a release at 44
degrees snaps to 30 and emits 11, and a release at -44 degrees snaps to
-30 (normalized 330) and emits 1. -/
theorem one_section_clockwise_emits_complement (n : ℕ) (hn : 0 < n) :
    sectionIndex n (360 / (n : ℚ)) = (n : ℤ) - 1
  ∧ snappedRotation 12 44 = 30
  ∧ sectionIndex 12 (snappedRotation 12 44) = 11
  ∧ snappedRotation 12 (-44) = -30
  ∧ normalizedRotation (-30) = 330
  ∧ sectionIndex 12 (snappedRotation 12 (-44)) = 1 := by
  have hnZ : (0 : ℤ) < (n : ℤ) := by exact_mod_cast hn
  have hb : snappedRotation 12 44 = 30 := by
    rw [snappedRotation, jsRound,
      show (44 : ℚ) / degreesPerSection 12 + 1 / 2 = 59 / 30 by
        rw [degreesPerSection]; norm_num,
      show (⌊(59 / 30 : ℚ)⌋ : ℤ) = 1 by rw [Int.floor_eq_iff]; norm_num,
      degreesPerSection]
    norm_num
  have hd : snappedRotation 12 (-44) = -30 := by
    rw [snappedRotation, jsRound,
      show (-44 : ℚ) / degreesPerSection 12 + 1 / 2 = -29 / 30 by
        rw [degreesPerSection]; norm_num,
      show (⌊(-29 / 30 : ℚ)⌋ : ℤ) = -1 by rw [Int.floor_eq_iff]; norm_num,
      degreesPerSection]
    norm_num
  refine ⟨?_, hb, ?_, hd, ?_, ?_⟩
  · rw [show (360 / (n : ℚ)) = ((1 : ℤ) : ℚ) * degreesPerSection n by
      rw [degreesPerSection]; push_cast; ring,
      sectionIndex_intCast_mul n hn]
    rw [show (-1 : ℤ) = ((n : ℤ) - 1) + (n : ℤ) * (-1) by ring,
      Int.add_mul_emod_self_left,
      Int.emod_eq_of_lt (by omega) (by omega)]
  · rw [hb, show (30 : ℚ) = ((1 : ℤ) : ℚ) * degreesPerSection 12 by
      rw [degreesPerSection]; norm_num,
      sectionIndex_intCast_mul 12 (by norm_num)]
    decide
  · rw [normalizedRotation_eq,
      show (-30 : ℚ) / 360 = -1 / 12 by norm_num, Int.fract,
      show (⌊(-1 / 12 : ℚ)⌋ : ℤ) = -1 by rw [Int.floor_eq_iff]; norm_num]
    norm_num
  · rw [hd, show (-30 : ℚ) = ((-1 : ℤ) : ℚ) * degreesPerSection 12 by
      rw [degreesPerSection]; norm_num,
      sectionIndex_intCast_mul 12 (by norm_num)]
    decide

/-- Witness for C2 at n = 12. -/
theorem one_section_clockwise_emits_complement_witness :
    0 < 12
  ∧ (sectionIndex 12 (360 / (12 : ℚ)) = (12 : ℤ) - 1
  ∧ snappedRotation 12 44 = 30
  ∧ sectionIndex 12 (snappedRotation 12 44) = 11
  ∧ snappedRotation 12 (-44) = -30
  ∧ normalizedRotation (-30) = 330
  ∧ sectionIndex 12 (snappedRotation 12 (-44)) = 1) :=
  ⟨by norm_num, one_section_clockwise_emits_complement 12 (by norm_num)⟩

/-- C3: for every sectionCount n > 0 and every (unbounded, possibly
negative) release rotation, the emitted index lies in `[0, n)`. -/
theorem emitted_index_in_range (n : ℕ) (hn : 0 < n) (r : ℚ) :
    0 ≤ sectionIndex n (snappedRotation n r)
  ∧ sectionIndex n (snappedRotation n r) < (n : ℤ) := by
  have hnZ : (0 : ℤ) < (n : ℤ) := by exact_mod_cast hn
  rw [show snappedRotation n r
      = ((jsRound (r / degreesPerSection n) : ℤ) : ℚ) * degreesPerSection n from rfl,
    sectionIndex_intCast_mul n hn]
  exact ⟨Int.emod_nonneg _ hnZ.ne', Int.emod_lt_of_pos _ hnZ⟩

/-- Witness for C3 at n = 12, release rotation -1000. -/
theorem emitted_index_in_range_witness :
    0 < 12
  ∧ (0 ≤ sectionIndex 12 (snappedRotation 12 (-1000))
  ∧ sectionIndex 12 (snappedRotation 12 (-1000)) < (12 : ℤ)) :=
  ⟨by norm_num, emitted_index_in_range 12 (by norm_num) (-1000)⟩

/-- C4: on the Engaged to Idle transition, both the rendered rotation
and the internal rotation ref become
`round(current / (360/n)) * (360/n)` and `isDragging` becomes false. -/
theorem release_snaps_and_disengages (n : ℕ) (_hn : 0 < n) (cb : Bool) (s : RotaryState)
    (hdrag : s.isDragging = true) :
    (handleEnd n cb s).1.rotation
      = ((round (s.currentRotation / (360 / (n : ℚ))) : ℤ) : ℚ) * (360 / (n : ℚ))
  ∧ (handleEnd n cb s).1.currentRotation
      = ((round (s.currentRotation / (360 / (n : ℚ))) : ℤ) : ℚ) * (360 / (n : ℚ))
  ∧ (handleEnd n cb s).1.isDragging = false := by
  refine ⟨?_, ?_, ?_⟩ <;>
    simp [handleEnd, hdrag, snappedRotation, degreesPerSection, jsRound_eq_round]

/-- Witness for C4 at n = 12 and an engaged state at 44 degrees. -/
theorem release_snaps_and_disengages_witness :
    0 < 12
  ∧ (RotaryState.mk 44 true 0 44).isDragging = true
  ∧ ((handleEnd 12 true (RotaryState.mk 44 true 0 44)).1.rotation
      = ((round ((RotaryState.mk 44 true 0 44).currentRotation / (360 / (12 : ℚ))) : ℤ) : ℚ)
          * (360 / (12 : ℚ))
  ∧ (handleEnd 12 true (RotaryState.mk 44 true 0 44)).1.currentRotation
      = ((round ((RotaryState.mk 44 true 0 44).currentRotation / (360 / (12 : ℚ))) : ℤ) : ℚ)
          * (360 / (12 : ℚ))
  ∧ (handleEnd 12 true (RotaryState.mk 44 true 0 44)).1.isDragging = false) :=
  ⟨by norm_num, rfl, release_snaps_and_disengages 12 (by norm_num) true _ rfl⟩

/-- C6 concerns the absent validation of `sectionCount`: construction
performs no check at all, so instantiating the hook with a zero or a
negative section count succeeds and yields an ordinary initial state. -/
theorem construction_accepts_nonpositive_sections :
    useRotaryInit { sections := 0, hasCallback := false, initialRotation := 5 }
      = { rotation := 5, isDragging := false, startAngle := 0, currentRotation := 5 }
  ∧ useRotaryInit { sections := -3, hasCallback := true, initialRotation := 0 }
      = { rotation := 0, isDragging := false, startAngle := 0, currentRotation := 0 } :=
  ⟨rfl, rfl⟩

/-- C7: while Idle, move and end events leave the whole state unchanged
and emit nothing; and after an end event the state is Idle, so a
further move event is again a no-op until a new start event. -/
theorem idle_events_are_noops (n : ℕ) (cb : Bool) (a b : ℚ) (s t : RotaryState)
    (hs : s.isDragging = false) (ht : t.isDragging = true) :
    handleMove a s = s
  ∧ handleEnd n cb s = (s, none)
  ∧ (handleEnd n cb t).1.isDragging = false
  ∧ handleMove b (handleEnd n cb t).1 = (handleEnd n cb t).1 := by
  refine ⟨?_, ?_, ?_, ?_⟩ <;> simp [handleMove, handleEnd, hs, ht]

/-- Witness for C7: an idle resting state and an engaged state at
n = 12. -/
theorem idle_events_are_noops_witness :
    (RotaryState.mk 30 false 0 30).isDragging = false
  ∧ (RotaryState.mk 44 true 7 44).isDragging = true
  ∧ (handleMove 90 (RotaryState.mk 30 false 0 30) = RotaryState.mk 30 false 0 30
  ∧ handleEnd 12 true (RotaryState.mk 30 false 0 30) = (RotaryState.mk 30 false 0 30, none)
  ∧ (handleEnd 12 true (RotaryState.mk 44 true 7 44)).1.isDragging = false
  ∧ handleMove 15 (handleEnd 12 true (RotaryState.mk 44 true 7 44)).1
      = (handleEnd 12 true (RotaryState.mk 44 true 7 44)).1) :=
  ⟨rfl, rfl, idle_events_are_noops 12 true 90 15 _ _ rfl rfl⟩

/-- C8: every release of an engaged state with a callback configured
emits exactly one value, the freshly computed index, regardless of any
previously emitted index; a start immediately followed by an end (no
intervening move) emits the index of the unchanged current rotation. -/
theorem release_always_emits (n : ℕ) (s : RotaryState) (hdrag : s.isDragging = true) (a : ℚ) :
    (handleEnd n true s).2 = some (sectionIndex n (snappedRotation n s.currentRotation))
  ∧ (handleEnd n true (handleStart a s)).2
      = some (sectionIndex n (snappedRotation n s.currentRotation)) := by
  constructor <;> simp [handleEnd, handleStart, hdrag]

/-- Witness for C8 at n = 12 and an engaged state at 44 degrees. -/
theorem release_always_emits_witness :
    (RotaryState.mk 44 true 0 44).isDragging = true
  ∧ ((handleEnd 12 true (RotaryState.mk 44 true 0 44)).2
      = some (sectionIndex 12 (snappedRotation 12 (RotaryState.mk 44 true 0 44).currentRotation))
  ∧ (handleEnd 12 true (handleStart 90 (RotaryState.mk 44 true 0 44))).2
      = some (sectionIndex 12 (snappedRotation 12 (RotaryState.mk 44 true 0 44).currentRotation))) :=
  ⟨rfl, release_always_emits 12 _ rfl 90⟩

/-- C9: snapping is idempotent: a release at a rotation that is exactly
`m` sections, m an integer, snaps to that same rotation. -/
theorem snap_is_idempotent (n : ℕ) (hn : 0 < n) (m : ℤ) :
    snappedRotation n ((m : ℚ) * (360 / (n : ℚ))) = (m : ℚ) * (360 / (n : ℚ)) := by
  have hdps : (0 : ℚ) < 360 / (n : ℚ) := by
    have h1 := degreesPerSection_pos hn
    rwa [degreesPerSection] at h1
  have h1 : ((m : ℚ) * (360 / (n : ℚ))) / degreesPerSection n = (m : ℚ) := by
    rw [degreesPerSection, mul_div_cancel_right₀ _ hdps.ne']
  rw [snappedRotation, h1, jsRound_intCast, degreesPerSection]

/-- Witness for C9 at n = 12, m = -5. -/
theorem snap_is_idempotent_witness :
    0 < 12
  ∧ snappedRotation 12 (((-5 : ℤ) : ℚ) * (360 / (12 : ℚ))) = ((-5 : ℤ) : ℚ) * (360 / (12 : ℚ)) :=
  ⟨by norm_num, snap_is_idempotent 12 (by norm_num) (-5)⟩

/-- C10: coordinate extraction returns the first touch point of a
nonempty touch list, the client coordinates of a mouse event, and is
undefined (the unguarded `touches[0]` access) on an empty touch list. -/
theorem getEventCoordinates_cases (x y : ℚ) (t : TouchPoint) (ts : List TouchPoint) :
    getEventCoordinates (InputEvent.mouse x y) = some { x := x, y := y }
  ∧ getEventCoordinates (InputEvent.touch (t :: ts)) = some { x := t.clientX, y := t.clientY }
  ∧ getEventCoordinates (InputEvent.touch []) = none :=
  ⟨rfl, rfl, rfl⟩

/-- C5: the geometry engine returns `atan2(deltaY, deltaX)` converted
from radians to degrees, the deltas taken from the centre of the
bounding rectangle to the pointer, and returns 0 when the region is
unavailable; it is a pure function of its arguments. -/
theorem calculateAngleFromCenter_cases (rect : DOMRect) (x y : ℝ) :
    calculateAngleFromCenter (some rect) x y
      = atan2 (y - (rect.top + rect.height / 2)) (x - (rect.left + rect.width / 2))
          * 180 / Real.pi
  ∧ calculateAngleFromCenter none x y = 0 :=
  ⟨rfl, rfl⟩
